import Mathlib

/-!
Verification development for the DazedTrader autonomous strategy-execution
core (Go sources under `algo/` and `algo/strategies/`).

Shallow embedding conventions:
-- Go `float64` values are modelled as exact rationals (`ℚ`); the code under
   study only adds, multiplies, divides and compares, and every division we
   reason about is guarded by a positivity hypothesis, so exact arithmetic is
   a faithful model of the intended real-number semantics.
-- Go `int` is modelled as `ℤ` (no overflow occurs at the counts involved).
-- `time.Time` values are modelled as rational "seconds" where only
   differences matter, and truncated calendar days as `ℤ` day numbers.
-- Go maps keyed by strategy name are association lists with Go's
   zero-value default on missing keys.
-- Calls into the brokerage client and the wall clock are passed in as
   explicit parameters (an oracle function or a concrete value), so each
   function of the source becomes a pure state transformer.
-/

namespace DazedTrader

/-- Signal type: Buy, Sell or Hold. Modelled from the spec: the `SignalType`
and `Signal` declarations of package `algo` are not in the provided sources
(only their uses are); fields follow the data model of the specification and
the field accesses in the code. -/
inductive SignalType where
  | buy
  | sell
  | hold
deriving DecidableEq, Repr

/-- Trading signal produced by a strategy. Modelled from the spec: see
`SignalType`. The strategy-specific metadata map is omitted (no function
under study reads it). -/
structure Signal where
  typ : SignalType
  symbol : String
  price : ℚ
  quantity : ℚ
  confidence : ℚ
  timestamp : ℚ
deriving DecidableEq, Repr

/-- Position held by one strategy runner. Modelled from the spec: the
`Position` declaration of package `algo` is not in the provided sources;
fields follow the data model of the specification and the field accesses in
`updatePositionFromTrade`. Defaults are Go zero values, and `openTime = 0`
plays the role of Go's zero `time.Time`. -/
structure Position where
  symbol : String := ""
  quantity : ℚ := 0
  averagePrice : ℚ := 0
  marketValue : ℚ := 0
  unrealizedPnL : ℚ := 0
  openTime : ℚ := 0
deriving DecidableEq, Repr

/-- Completed-fill record, from the `Trade` struct of the strategy-runner
source file. -/
structure Trade where
  id : String := ""
  symbol : String := ""
  side : String := ""
  quantity : ℚ := 0
  price : ℚ := 0
  timestamp : ℚ := 0
  pnl : ℚ := 0
  commission : ℚ := 0
deriving DecidableEq, Repr

/-- Per-strategy risk limits. Modelled from the spec: the `RiskLimits`
declaration is not in the provided sources; fields follow the
specification's data model and the accesses in `RiskManager.ValidateSignal`. -/
structure RiskLimits where
  maxPositionSize : ℚ := 0
  stopLossPercent : ℚ := 0
  takeProfitPercent : ℚ := 0
  maxDailyTrades : ℤ := 0
  maxDailyLoss : ℚ := 0
  cooldownPeriod : ℚ := 0
deriving DecidableEq, Repr

/-- Read-mostly strategy snapshot. Modelled from the spec: the
`StrategyState` declaration is not in the provided sources; only the fields
read or written by the functions under study are kept. -/
structure StrategyState where
  name : String := ""
  symbol : String := ""
  position : Position := {}
  lastSignal : Option Signal := none
  tradesCount : ℤ := 0
  pnl : ℚ := 0
deriving DecidableEq, Repr

/-! ## RiskManager (`algo/risk_manager.go`) -/

/-- Go map read with zero-value default, for `map[string]int`. -/
def lookupZ (m : List (String × ℤ)) (k : String) : ℤ :=
  match m.find? (fun p => p.1 == k) with
  | some p => p.2
  | none => 0

/-- Go map read with zero-value default, for `map[string]float64`. -/
def lookupQ (m : List (String × ℚ)) (k : String) : ℚ :=
  match m.find? (fun p => p.1 == k) with
  | some p => p.2
  | none => 0

/-- RiskManager state: per-strategy daily counters plus the truncated day of
the last reset (`lastResetTime` in the source, kept as a day number). -/
structure RiskManager where
  dailyTradeCount : List (String × ℤ) := []
  dailyLoss : List (String × ℚ) := []
  lastResetDay : ℤ := 0
deriving DecidableEq, Repr

/-- `resetDailyCountersIfNeeded`: clear both counter maps when the current
truncated day is after the day of the last reset. `nowDay` is
`time.Now().Truncate(24h)` as a day number. -/
def resetDailyCountersIfNeeded (rm : RiskManager) (nowDay : ℤ) : RiskManager :=
  if rm.lastResetDay < nowDay then
    { dailyTradeCount := [], dailyLoss := [], lastResetDay := nowDay }
  else
    rm

/-- Cooldown check of `ValidateSignal`: in the source the check runs only
when `state.LastSignal != nil`, and compares `time.Since` of its timestamp
with the cooldown period. -/
def cooldownBlocked (now : ℚ) (cooldown : ℚ) : Option Signal → Bool
  | some ls => decide (now - ls.timestamp < cooldown)
  | none => false

/-- `RiskManager.ValidateSignal`: lazily reset the daily counters, then
apply the checks of the source in order (daily trade limit, daily loss
limit, buy position-size limits, cooldown, confidence floor). `now` is the
current time in seconds and `nowDay` its truncated day. The source mutates
the receiver during the lazy reset, so the updated state is returned
alongside the boolean. -/
def ValidateSignal (rm : RiskManager) (now : ℚ) (nowDay : ℤ)
    (signal : Signal) (limits : RiskLimits) (state : StrategyState) :
    Bool × RiskManager :=
  let rm := resetDailyCountersIfNeeded rm nowDay
  let strategyKey := state.name
  if limits.maxDailyTrades ≤ lookupZ rm.dailyTradeCount strategyKey then
    (false, rm)
  else if limits.maxDailyLoss ≤ lookupQ rm.dailyLoss strategyKey then
    (false, rm)
  else if signal.typ = SignalType.buy ∧
      limits.maxPositionSize < signal.quantity * signal.price then
    (false, rm)
  else if signal.typ = SignalType.buy ∧
      limits.maxPositionSize <
        state.position.quantity * signal.price + signal.quantity * signal.price then
    (false, rm)
  else if cooldownBlocked now limits.cooldownPeriod state.lastSignal then
    (false, rm)
  else if signal.confidence < 1/2 then
    (false, rm)
  else
    (true, rm)

/-- `RiskManager.RecordTrade`: reset lazily, increment the daily trade
count, and accumulate the loss when the trade's P&L is negative. -/
def RecordTrade (rm : RiskManager) (nowDay : ℤ) (strategyName : String)
    (trade : Trade) : RiskManager :=
  let rm := resetDailyCountersIfNeeded rm nowDay
  let newCount := lookupZ rm.dailyTradeCount strategyName + 1
  let counts :=
    (strategyName, newCount) ::
      rm.dailyTradeCount.filter (fun p => !(p.1 == strategyName))
  let losses :=
    if trade.pnl < 0 then
      (strategyName, lookupQ rm.dailyLoss strategyName + (- trade.pnl)) ::
        rm.dailyLoss.filter (fun p => !(p.1 == strategyName))
    else
      rm.dailyLoss
  { rm with dailyTradeCount := counts, dailyLoss := losses }

/-! ## PerformanceMetrics (`algo/performance_metrics.go`) -/

/-- Performance accumulator. Fields follow the Go struct; the wall-clock
fields `StartTime`/`LastUpdate`/`DayStartTime` are replaced by the explicit
`newDay` parameter of `UpdatePortfolioValue` (which stands for
`time.Since(DayStartTime) >= 24h`). -/
structure PerformanceMetrics where
  initialCapital : ℚ := 10000
  totalPnL : ℚ := 0
  dailyPnL : ℚ := 0
  unrealizedPnL : ℚ := 0
  realizedPnL : ℚ := 0
  totalTrades : ℤ := 0
  winningTrades : ℤ := 0
  losingTrades : ℤ := 0
  winRate : ℚ := 0
  averageWin : ℚ := 0
  averageLoss : ℚ := 0
  profitFactor : ℚ := 0
  maxDrawdown : ℚ := 0
  maxDrawdownPercent : ℚ := 0
  sharpe : ℚ := 0
  sortino : ℚ := 0
  var95 : ℚ := 0
  dayStartPnL : ℚ := 0
  dailyReturns : List ℚ := []
  peakValue : ℚ := 10000
deriving DecidableEq, Repr

/-- `NewPerformanceMetrics`: default capital 10000 and matching peak. -/
def NewPerformanceMetrics : PerformanceMetrics := {}

/-- `PerformanceMetrics.UpdateFromTrade`: bump trade counts, win/loss
tallies and incremental averages, then win rate, then profit factor (the
latter only when the average loss is positive). -/
def UpdateFromTrade (pm : PerformanceMetrics) (trade : Trade) : PerformanceMetrics :=
  let pm : PerformanceMetrics :=
    { pm with totalTrades := pm.totalTrades + 1, realizedPnL := pm.realizedPnL + trade.pnl }
  let pm : PerformanceMetrics :=
    if 0 < trade.pnl then
      let w := pm.winningTrades + 1
      { pm with winningTrades := w,
                averageWin := (pm.averageWin * ((w : ℚ) - 1) + trade.pnl) / (w : ℚ) }
    else if trade.pnl < 0 then
      let l := pm.losingTrades + 1
      { pm with losingTrades := l,
                averageLoss := (pm.averageLoss * ((l : ℚ) - 1) + |trade.pnl|) / (l : ℚ) }
    else
      pm
  let pm : PerformanceMetrics :=
    if 0 < pm.totalTrades then
      { pm with winRate := (pm.winningTrades : ℚ) / (pm.totalTrades : ℚ) }
    else
      pm
  if 0 < pm.averageLoss then
    { pm with profitFactor :=
        (pm.averageWin * (pm.winningTrades : ℚ)) / (pm.averageLoss * (pm.losingTrades : ℚ)) }
  else
    pm

/-- `calculateMean` of the source. -/
def calculateMean (values : List ℚ) : ℚ :=
  if values = [] then 0 else values.sum / (values.length : ℚ)

/-- `calculateStdDev` of the source; `sqrtFn` stands for `math.Sqrt`, which
has no exact rational counterpart and is passed in abstractly. -/
def calculateStdDev (sqrtFn : ℚ → ℚ) (values : List ℚ) (mean : ℚ) : ℚ :=
  if values.length ≤ 1 then 0
  else
    sqrtFn ((values.map (fun v => (v - mean) * (v - mean))).sum / ((values.length : ℚ) - 1))

/-- `calculateVaR`: insertion-sort the returns ascending, truncate
`alpha * n` to an index, clamp it below the length, and take the absolute
value of that element. The source's hand-written insertion sort produces the
ascending sorted permutation of its input, which is what
`List.insertionSort (· ≤ ·)` computes. -/
def calculateVaR (returns : List ℚ) (alpha : ℚ) : ℚ :=
  if returns = [] then 0
  else
    let sorted := List.insertionSort (fun a b => a ≤ b) returns
    let index := min ⌊alpha * (returns.length : ℚ)⌋.toNat (sorted.length - 1)
    |sorted.getD index 0|

/-- `calculateRiskMetrics`: no update below 30 daily returns; otherwise
compute the annualized Sharpe and Sortino ratios (guarded by positive
deviation) and the 95 percent VaR. -/
def calculateRiskMetrics (sqrtFn : ℚ → ℚ) (pm : PerformanceMetrics) : PerformanceMetrics :=
  if pm.dailyReturns.length < 30 then pm
  else
    let meanReturn := calculateMean pm.dailyReturns
    let stdDev := calculateStdDev sqrtFn pm.dailyReturns meanReturn
    let pm :=
      if 0 < stdDev then
        { pm with sharpe := (meanReturn * 252) / (stdDev * sqrtFn 252) }
      else pm
    let downturns := pm.dailyReturns.filter (fun ret => ret < 0)
    let pm :=
      if downturns ≠ [] then
        let downsideStdDev := calculateStdDev sqrtFn downturns 0
        if 0 < downsideStdDev then
          { pm with sortino := (meanReturn * 252) / (downsideStdDev * sqrtFn 252) }
        else pm
      else pm
    { pm with var95 := calculateVaR pm.dailyReturns (1/20) }

/-- `PerformanceMetrics.UpdatePortfolioValue`: refresh total P&L, track the
running peak and drawdown, once per calendar day append a daily return to
the capped history (`newDay` stands for `time.Since(DayStartTime) >= 24h`),
refresh the daily P&L and recompute the risk metrics. -/
def UpdatePortfolioValue (sqrtFn : ℚ → ℚ) (pm : PerformanceMetrics)
    (currentValue : ℚ) (newDay : Bool) : PerformanceMetrics :=
  let pm := { pm with totalPnL := currentValue - pm.initialCapital }
  let pm :=
    if pm.peakValue < currentValue then { pm with peakValue := currentValue } else pm
  let currentDrawdown := pm.peakValue - currentValue
  let pm :=
    if pm.maxDrawdown < currentDrawdown then
      { pm with maxDrawdown := currentDrawdown,
                maxDrawdownPercent := (currentDrawdown / pm.peakValue) * 100 }
    else pm
  let pm :=
    if newDay then
      let dailyReturn := pm.totalPnL - pm.dayStartPnL
      let rets := pm.dailyReturns ++ [dailyReturn]
      let rets := if 252 < rets.length then rets.drop 1 else rets
      { pm with dailyReturns := rets, dayStartPnL := pm.totalPnL }
    else pm
  let pm := { pm with dailyPnL := pm.totalPnL - pm.dayStartPnL }
  calculateRiskMetrics sqrtFn pm

/-! ## OrderManager (`algo/order_manager.go`) -/

/-- Order request, from the Go struct. -/
structure OrderRequest where
  symbol : String := ""
  side : String := ""
  typ : String := ""
  quantity : ℚ := 0
  price : ℚ := 0
deriving DecidableEq, Repr

/-- Order lifecycle record, from the Go struct. -/
structure OrderRecord where
  id : String := ""
  clientID : String := ""
  symbol : String := ""
  side : String := ""
  typ : String := ""
  quantity : ℚ := 0
  price : ℚ := 0
  status : String := ""
  filledQty : ℚ := 0
  avgPrice : ℚ := 0
  submitTime : ℚ := 0
  completeTime : ℚ := 0
  retryCount : ℤ := 0
  errorMsg : String := ""
deriving DecidableEq, Repr

/-- Brokerage order-placement response (`api.CryptoOrder`), restricted to
the fields `SubmitOrder` reads. -/
structure CryptoOrder where
  id : String := ""
  state : String := ""
  averagePrice : ℚ := 0
  filledAssetQuantity : ℚ := 0
deriving DecidableEq, Repr

/-- OrderManager state: the pending table keyed by order id plus the
completed list. -/
structure OrderManager where
  pendingOrders : List (String × OrderRecord) := []
  completedOrders : List OrderRecord := []
deriving DecidableEq, Repr

/-- Pending-table lookup (Go map access with `exists` flag). -/
def pendingLookup (om : OrderManager) (orderID : String) : Option OrderRecord :=
  lookupRec om.pendingOrders orderID
where
  lookupRec (m : List (String × OrderRecord)) (k : String) : Option OrderRecord :=
    match m.find? (fun p => p.1 == k) with
    | some p => some p.2
    | none => none

/-- `OrderManager.SubmitOrder`. The brokerage call and the clock are passed
in: `apiResult` is the outcome of `PlaceCryptoOrderNew` and `now` the
current time. On an API error the record is completed as failed and the
error propagated; on an immediate fill a trade carrying the fill quantity
and average price is returned; otherwise the record enters the pending
table and a trade carrying the request's quantity and price is returned. -/
def SubmitOrder (om : OrderManager) (request : OrderRequest) (clientID : String)
    (now : ℚ) (apiResult : Except String CryptoOrder) :
    Except String Trade × OrderManager :=
  let record : OrderRecord :=
    { clientID := clientID, symbol := request.symbol, side := request.side,
      typ := request.typ, quantity := request.quantity, price := request.price,
      status := "pending", submitTime := now }
  match apiResult with
  | Except.error e =>
      let record := { record with status := "failed", errorMsg := e, completeTime := now }
      (Except.error ("failed to submit order: " ++ e),
       { om with completedOrders := om.completedOrders ++ [record] })
  | Except.ok apiOrder =>
      let record :=
        { record with
            id := apiOrder.id, status := apiOrder.state,
            filledQty := apiOrder.filledAssetQuantity, avgPrice := apiOrder.averagePrice }
      if apiOrder.state = "filled" then
        let record := { record with completeTime := now }
        let trade : Trade :=
          { id := apiOrder.id, symbol := request.symbol, side := request.side,
            quantity := apiOrder.filledAssetQuantity, price := apiOrder.averagePrice,
            timestamp := now, pnl := 0, commission := 0 }
        (Except.ok trade, { om with completedOrders := om.completedOrders ++ [record] })
      else
        let om := { om with pendingOrders := om.pendingOrders ++ [(apiOrder.id, record)] }
        let trade : Trade :=
          { id := apiOrder.id, symbol := request.symbol, side := request.side,
            quantity := request.quantity, price := request.price,
            timestamp := now, pnl := 0, commission := 0 }
        (Except.ok trade, om)

/-- `OrderManager.cancelOrder`: no-op when the id is not pending; otherwise
cancel at the brokerage (`cancelErr` is the outcome; a failure writes an
error message that the next line overwrites with `reason`, exactly as in
the source), mark the record cancelled and move it to the completed list. -/
def cancelOrder (om : OrderManager) (orderID : String) (reason : String)
    (cancelErr : Option String) (now : ℚ) : OrderManager :=
  match pendingLookup om orderID with
  | none => om
  | some record =>
      let record :=
        match cancelErr with
        | some e => { record with errorMsg := "cancel failed: " ++ e }
        | none => record
      let record := { record with status := "cancelled", completeTime := now, errorMsg := reason }
      { pendingOrders := om.pendingOrders.filter (fun p => !(p.1 == orderID)),
        completedOrders := om.completedOrders ++ [record] }

/-- Timeout branch of `OrderManager.monitorOrder`: when the pending order
neither fills nor is cancelled before `orderTimeout` elapses, the `select`
takes the timeout case and calls `cancelOrder(orderID, "timeout")`. -/
def monitorOrderTimeout (om : OrderManager) (orderID : String)
    (cancelErr : Option String) (now : ℚ) : OrderManager :=
  cancelOrder om orderID "timeout" cancelErr now

/-! ## StrategyRunner (`strategy_runner.go`, first file of `part_004`) -/

/-- Strategy-runner state restricted to what the executed signal path
touches: the position, the trade log, the realized P&L and the snapshot
fields kept in `state`. The strategy object, channels and locks of the Go
struct play no part in the functions under study. -/
structure StrategyRunner where
  configName : String := ""
  configSymbol : String := ""
  riskLimits : RiskLimits := {}
  state : StrategyState := {}
  position : Position := {}
  trades : List Trade := []
  pnl : ℚ := 0
deriving DecidableEq, Repr

/-- `StrategyRunner.updatePositionFromTrade`: weighted-average cost on a
buy; realized P&L and quantity reduction on a sell, resetting the position
object when the quantity falls to zero or below; then refresh market value,
unrealized P&L (only while a position is open) and the state snapshot. -/
def updatePositionFromTrade (sr : StrategyRunner) (trade : Trade) : StrategyRunner :=
  let sr : StrategyRunner :=
    if trade.side = "buy" then
      let totalCost := sr.position.quantity * sr.position.averagePrice + trade.quantity * trade.price
      let newQty := sr.position.quantity + trade.quantity
      { sr with position :=
          { sr.position with
              quantity := newQty, averagePrice := totalCost / newQty,
              openTime := if sr.position.openTime = 0 then trade.timestamp else sr.position.openTime } }
    else if trade.side = "sell" then
      let soldValue := trade.quantity * trade.price
      let costBasis := trade.quantity * sr.position.averagePrice
      let realizedPnL := soldValue - costBasis - trade.commission
      let newPnl := sr.pnl + realizedPnL
      let newQty := sr.position.quantity - trade.quantity
      let pos : Position :=
        if newQty ≤ 0 then { symbol := sr.configSymbol }
        else { sr.position with quantity := newQty }
      { sr with pnl := newPnl, state := { sr.state with pnl := newPnl }, position := pos }
    else
      sr
  let mv := sr.position.quantity * trade.price
  let pos : Position := { sr.position with marketValue := mv }
  let pos : Position :=
    if 0 < pos.quantity then
      { pos with unrealizedPnL := mv - pos.quantity * pos.averagePrice }
    else pos
  { sr with position := pos, state := { sr.state with position := pos } }

/-- `StrategyRunner.executeBuySignal`. The order submission is the oracle
`submit`; the function also returns the list of order requests it
submitted, which is empty exactly when no order reached the brokerage. A
buy is blocked outright while a position is open; otherwise the quantity is
clamped to the maximum position size and a market buy submitted, and on
success the position, trade log and trade counter are updated. -/
def executeBuySignal (sr : StrategyRunner) (signal : Signal)
    (submit : OrderRequest → Except String Trade) :
    StrategyRunner × List OrderRequest :=
  if 0 < sr.position.quantity then
    (sr, [])
  else
    let maxPositionSize := sr.riskLimits.maxPositionSize
    let quantity :=
      if maxPositionSize < signal.quantity * signal.price then
        maxPositionSize / signal.price
      else signal.quantity
    let order : OrderRequest :=
      { symbol := signal.symbol, side := "buy", typ := "market", quantity := quantity }
    match submit order with
    | Except.error _ => (sr, [order])
    | Except.ok trade =>
        let sr := updatePositionFromTrade sr trade
        ({ sr with trades := sr.trades ++ [trade],
                   state := { sr.state with tradesCount := sr.state.tradesCount + 1 } },
         [order])

/-- `StrategyRunner.executeSellSignal`. A sell is blocked without an open
position; with one, the unrealized profit percent against average cost is
computed and the sell proceeds only when it is at or below the hard-coded
-2 percent stop loss or at or above the hard-coded 0.5 percent minimum
profit; then the quantity is clamped to the position and a market sell
submitted, with position, trade log and counter updated on success. -/
def executeSellSignal (sr : StrategyRunner) (signal : Signal)
    (submit : OrderRequest → Except String Trade) :
    StrategyRunner × List OrderRequest :=
  if sr.position.quantity ≤ 0 then
    (sr, [])
  else
    let currentValue := sr.position.quantity * signal.price
    let costBasis := sr.position.quantity * sr.position.averagePrice
    let potentialProfit := currentValue - costBasis
    let profitPercent := (potentialProfit / costBasis) * 100
    let stopLossPercent : ℚ := -2
    let minProfitPercent : ℚ := 1/2
    if profitPercent ≤ stopLossPercent ∨ minProfitPercent ≤ profitPercent then
      let quantity :=
        if sr.position.quantity < signal.quantity then sr.position.quantity
        else signal.quantity
      let order : OrderRequest :=
        { symbol := signal.symbol, side := "sell", typ := "market", quantity := quantity }
      match submit order with
      | Except.error _ => (sr, [order])
      | Except.ok trade =>
          let sr := updatePositionFromTrade sr trade
          ({ sr with trades := sr.trades ++ [trade],
                     state := { sr.state with tradesCount := sr.state.tradesCount + 1 } },
           [order])
    else
      (sr, [])

/-- Fold a list of fills through `updatePositionFromTrade`. -/
def applyTrades (sr : StrategyRunner) (ts : List Trade) : StrategyRunner :=
  ts.foldl updatePositionFromTrade sr

/-- Total quantity of a list of fills. -/
def sumQty (ts : List Trade) : ℚ :=
  (ts.map (fun t => t.quantity)).sum

/-- Total cost (quantity times price) of a list of fills. -/
def sumCost (ts : List Trade) : ℚ :=
  (ts.map (fun t => t.quantity * t.price)).sum

/-! ## MovingAverageStrategy (`algo/strategies/moving_average.go`) -/

/-- Market-data tick. Modelled from the spec: the `PriceTick` declaration of
package `algo` is not in the provided sources; only the fields the strategy
reads are kept. -/
structure PriceTick where
  symbol : String := ""
  price : ℚ := 0
  timestamp : ℚ := 0
deriving DecidableEq, Repr

/-- Moving-average strategy state. `lastSignalTime = none` models Go's zero
`time.Time` (for which `time.Since` is far larger than any cooldown);
`maxPositionSize` is the `config.RiskLimits.MaxPositionSize` read by
`calculatePositionSize`. -/
structure MovingAverageStrategy where
  symbol : String := ""
  shortPeriod : ℕ := 5
  longPeriod : ℕ := 20
  maxPositionSize : ℚ := 0
  prices : List ℚ := []
  shortMA : ℚ := 0
  longMA : ℚ := 0
  lastSignal : SignalType := SignalType.hold
  lastSignalTime : Option ℚ := none
deriving DecidableEq, Repr

/-- Simple moving average of the last `k` entries of `ps` (the loop
`for i := len(ps)-k; i < len(ps); i++` of the source). -/
def lastWindowMA (ps : List ℚ) (k : ℕ) : ℚ :=
  (ps.drop (ps.length - k)).sum / (k : ℚ)

/-- `updateMovingAverages`: both averages refresh only once the history
reaches the long period. -/
def updateMovingAverages (mas : MovingAverageStrategy) : MovingAverageStrategy :=
  if mas.prices.length < mas.longPeriod then mas
  else
    { mas with shortMA := lastWindowMA mas.prices mas.shortPeriod,
               longMA := lastWindowMA mas.prices mas.longPeriod }

/-- `calculatePositionSize`: scale the maximum position value by the
confidence, convert to a quantity, and suppress orders below the 5 dollar
minimum. -/
def calculatePositionSize (mas : MovingAverageStrategy) (price confidence : ℚ) : ℚ :=
  let scaledPositionValue := mas.maxPositionSize * confidence
  let quantity := scaledPositionValue / price
  if quantity * price < 5 then 0 else quantity

/-- Cooldown test of `generateSignals`: `time.Since(lastSignalTime) >= 5min`
with the zero time always passing. -/
def cooldownElapsed (now : ℚ) : Option ℚ → Bool
  | some t => decide (300 ≤ now - t)
  | none => true

/-- `generateSignals`: with both averages available, recompute the previous
pair of averages over the history without its newest sample, emit Buy on a
crossing from `short ≤ long` to `short > long` and Sell on the reverse
crossing, with a spread-scaled confidence capped at 1; a non-Hold signal is
emitted only after the five-minute cooldown and with a positive sized
quantity. -/
def generateSignals (mas : MovingAverageStrategy) (tick : PriceTick) :
    MovingAverageStrategy × List Signal :=
  if mas.shortMA = 0 ∨ mas.longMA = 0 then
    (mas, [])
  else
    let n := mas.prices.length
    let prevShortMA :=
      if mas.longPeriod < n then lastWindowMA (mas.prices.take (n - 1)) mas.shortPeriod else 0
    let prevLongMA :=
      if mas.longPeriod < n then lastWindowMA (mas.prices.take (n - 1)) mas.longPeriod else 0
    let sigConf : SignalType × ℚ :=
      if prevShortMA ≠ 0 ∧ prevLongMA ≠ 0 then
        if prevShortMA ≤ prevLongMA ∧ mas.longMA < mas.shortMA then
          let spread := (mas.shortMA - mas.longMA) / mas.longMA
          (SignalType.buy, min (1/2 + spread * 10) 1)
        else if prevLongMA ≤ prevShortMA ∧ mas.shortMA < mas.longMA then
          let spread := (mas.longMA - mas.shortMA) / mas.longMA
          (SignalType.sell, min (1/2 + spread * 10) 1)
        else (SignalType.hold, 1/2)
      else (SignalType.hold, 1/2)
    let signal := sigConf.1
    let confidence := sigConf.2
    if signal ≠ SignalType.hold ∧ cooldownElapsed tick.timestamp mas.lastSignalTime then
      let quantity := calculatePositionSize mas tick.price confidence
      if 0 < quantity then
        ({ mas with lastSignal := signal, lastSignalTime := some tick.timestamp },
         [{ typ := signal, symbol := mas.symbol, price := tick.price,
            quantity := quantity, confidence := confidence, timestamp := tick.timestamp }])
      else (mas, [])
    else (mas, [])

/-- `MovingAverageStrategy.ProcessTick`: append the price, keep at most
`2 * longPeriod` samples, refresh the averages, and generate signals. -/
def ProcessTick (mas : MovingAverageStrategy) (tick : PriceTick) :
    MovingAverageStrategy × List Signal :=
  let prices := mas.prices ++ [tick.price]
  let maxHistory := mas.longPeriod * 2
  let prices := if maxHistory < prices.length then prices.drop (prices.length - maxHistory) else prices
  let mas := updateMovingAverages { mas with prices := prices }
  generateSignals mas tick

/-- Feed a list of ticks through `ProcessTick`, collecting every emitted
signal in order. -/
def runTicks (mas : MovingAverageStrategy) : List PriceTick → MovingAverageStrategy × List Signal
  | [] => (mas, [])
  | tick :: rest =>
      let step := ProcessTick mas tick
      let next := runTicks step.1 rest
      (next.1, step.2 ++ next.2)

/-- The scenario strategy: short period 5, long period 20, a 50 dollar
position cap. -/
def scenarioMAS : MovingAverageStrategy :=
  { symbol := "DOGE-USD", shortPeriod := 5, longPeriod := 20, maxPositionSize := 50 }

/-- The scenario ticks: 25 strictly increasing prices running from 100 to
125 (step 25/24), one tick per minute. -/
def scenarioTicks : List PriceTick :=
  (List.range 25).map (fun i =>
    { symbol := "DOGE-USD", price := 100 + (25/24 : ℚ) * i, timestamp := 60 * i })

/-- All signals the scenario emits. -/
def scenarioSignals : List Signal :=
  (runTicks scenarioMAS scenarioTicks).2

/-! ## Projection lemmas for `updatePositionFromTrade` -/

/-- Quantity after one fill. -/
lemma updatePos_quantity (sr : StrategyRunner) (t : Trade) :
    (updatePositionFromTrade sr t).position.quantity =
      if t.side = "buy" then sr.position.quantity + t.quantity
      else if t.side = "sell" then
        (if sr.position.quantity - t.quantity ≤ 0 then 0 else sr.position.quantity - t.quantity)
      else sr.position.quantity := by
  by_cases hb : t.side = "buy"
  · simp [updatePositionFromTrade, hb, apply_ite (Position.quantity)]
  · by_cases hs : t.side = "sell"
    · simp [updatePositionFromTrade, hb, hs, apply_ite (Position.quantity)]
    · simp [updatePositionFromTrade, hb, hs, apply_ite (Position.quantity)]

/-- Average price after one fill. -/
lemma updatePos_avg (sr : StrategyRunner) (t : Trade) :
    (updatePositionFromTrade sr t).position.averagePrice =
      if t.side = "buy" then
        (sr.position.quantity * sr.position.averagePrice + t.quantity * t.price) /
          (sr.position.quantity + t.quantity)
      else if t.side = "sell" then
        (if sr.position.quantity - t.quantity ≤ 0 then 0 else sr.position.averagePrice)
      else sr.position.averagePrice := by
  by_cases hb : t.side = "buy"
  · simp [updatePositionFromTrade, hb, apply_ite (Position.averagePrice)]
  · by_cases hs : t.side = "sell"
    · simp [updatePositionFromTrade, hb, hs, apply_ite (Position.averagePrice)]
    · simp [updatePositionFromTrade, hb, hs, apply_ite (Position.averagePrice)]

/-- One fill with nonnegative quantity keeps the position quantity
nonnegative. -/
lemma updatePos_qty_nonneg (sr : StrategyRunner) (t : Trade)
    (h : 0 ≤ sr.position.quantity) (ht : 0 ≤ t.quantity) :
    0 ≤ (updatePositionFromTrade sr t).position.quantity := by
  rw [updatePos_quantity]
  split
  · linarith
  · split
    · split
      · exact le_refl 0
      · linarith
    · exact h

/-- Folding fills with nonnegative quantities keeps the position quantity
nonnegative. -/
lemma applyTrades_qty_nonneg (ts : List Trade) (sr : StrategyRunner)
    (h : 0 ≤ sr.position.quantity) (hts : ∀ t ∈ ts, 0 ≤ t.quantity) :
    0 ≤ (applyTrades sr ts).position.quantity := by
  induction ts generalizing sr with
  | nil => simpa [applyTrades] using h
  | cons t rest ih =>
      have h1 : 0 ≤ (updatePositionFromTrade sr t).position.quantity :=
        updatePos_qty_nonneg sr t h (hts t (by simp))
      simpa [applyTrades] using ih (updatePositionFromTrade sr t) h1
        (fun u hu => hts u (by simp [hu]))

/-- Folding buy fills with positive quantities from a nonnegative position
adds the total quantity and the total cost. -/
lemma applyTrades_buys (buys : List Trade) (sr : StrategyRunner)
    (h : 0 ≤ sr.position.quantity)
    (hb : ∀ t ∈ buys, t.side = "buy" ∧ 0 < t.quantity) :
    (applyTrades sr buys).position.quantity = sr.position.quantity + sumQty buys ∧
    (applyTrades sr buys).position.quantity * (applyTrades sr buys).position.averagePrice =
      sr.position.quantity * sr.position.averagePrice + sumCost buys := by
  induction buys generalizing sr with
  | nil => simp [applyTrades, sumQty, sumCost]
  | cons t rest ih =>
      obtain ⟨hside, hqt⟩ := hb t (by simp)
      have hq1 : (updatePositionFromTrade sr t).position.quantity =
          sr.position.quantity + t.quantity := by
        rw [updatePos_quantity]; simp [hside]
      have hqpos : sr.position.quantity + t.quantity ≠ 0 := by positivity
      have havg1 : (updatePositionFromTrade sr t).position.quantity *
          (updatePositionFromTrade sr t).position.averagePrice =
          sr.position.quantity * sr.position.averagePrice + t.quantity * t.price := by
        rw [hq1, updatePos_avg]
        simp only [hside, if_pos]
        rw [mul_div_cancel₀ _ hqpos]
      have h1 : 0 ≤ (updatePositionFromTrade sr t).position.quantity := by
        rw [hq1]; positivity
      have := ih (updatePositionFromTrade sr t) h1 (fun u hu => hb u (by simp [hu]))
      constructor
      · rw [show applyTrades sr (t :: rest) = applyTrades (updatePositionFromTrade sr t) rest from rfl,
          this.1, hq1, sumQty]
        simp [sumQty]; ring
      · rw [show applyTrades sr (t :: rest) = applyTrades (updatePositionFromTrade sr t) rest from rfl,
          this.2, havg1, sumCost]
        simp [sumCost]; ring

/-- Folding sell fills from an empty position leaves it empty. -/
lemma applyTrades_sells_zero (sells : List Trade) (sr : StrategyRunner)
    (h : sr.position.quantity = 0)
    (hs : ∀ t ∈ sells, t.side = "sell" ∧ 0 ≤ t.quantity) :
    (applyTrades sr sells).position.quantity = 0 := by
  induction sells generalizing sr with
  | nil => simpa [applyTrades] using h
  | cons t rest ih =>
      obtain ⟨hside, hqt⟩ := hs t (by simp)
      have hnb : ¬ t.side = "buy" := by simp [hside]
      have hq1 : (updatePositionFromTrade sr t).position.quantity = 0 := by
        rw [updatePos_quantity, if_neg hnb, if_pos hside,
          if_pos (show sr.position.quantity - t.quantity ≤ 0 by rw [h]; linarith)]
      exact ih (updatePositionFromTrade sr t) hq1 (fun u hu => hs u (by simp [hu]))

/-- Folding sell fills never changes the average price while the position
stays open. -/
lemma applyTrades_sells_avg (sells : List Trade) (sr : StrategyRunner)
    (hs : ∀ t ∈ sells, t.side = "sell" ∧ 0 ≤ t.quantity)
    (hq : 0 < (applyTrades sr sells).position.quantity) :
    (applyTrades sr sells).position.averagePrice = sr.position.averagePrice := by
  induction sells generalizing sr with
  | nil => simp [applyTrades]
  | cons t rest ih =>
      obtain ⟨hside, hqt⟩ := hs t (by simp)
      have hnb : ¬ t.side = "buy" := by simp [hside]
      have hstep : applyTrades sr (t :: rest) = applyTrades (updatePositionFromTrade sr t) rest := rfl
      by_cases hclose : sr.position.quantity - t.quantity ≤ 0
      · exfalso
        have hq1 : (updatePositionFromTrade sr t).position.quantity = 0 := by
          rw [updatePos_quantity, if_neg hnb, if_pos hside, if_pos hclose]
        have := applyTrades_sells_zero rest (updatePositionFromTrade sr t) hq1
          (fun u hu => hs u (by simp [hu]))
        rw [hstep] at hq
        rw [this] at hq
        exact lt_irrefl 0 hq
      · have havg1 : (updatePositionFromTrade sr t).position.averagePrice =
            sr.position.averagePrice := by
          rw [updatePos_avg, if_neg hnb, if_pos hside, if_neg hclose]
        rw [hstep] at hq ⊢
        rw [ih (updatePositionFromTrade sr t) (fun u hu => hs u (by simp [hu])) hq, havg1]

/-- Total quantity of fills with nonnegative quantities is nonnegative. -/
lemma sumQty_nonneg (ts : List Trade) (h : ∀ t ∈ ts, 0 ≤ t.quantity) :
    0 ≤ sumQty ts := by
  induction ts with
  | nil => simp [sumQty]
  | cons t rest ih =>
      have h1 := h t (by simp)
      have h2 := ih (fun u hu => h u (by simp [hu]))
      simp only [sumQty, List.map_cons, List.sum_cons] at h2 ⊢
      linarith

/-! ## Claim theorems -/

/-- C1: for every state of a StrategyRunner and every Buy signal,
`executeBuySignal` submits no order and leaves the runner state (position,
trade log, trade counter) unchanged whenever the position quantity is
positive: a Buy is executed only from a flat position. -/
theorem buy_rejected_when_position_open (sr : StrategyRunner) (signal : Signal)
    (submit : OrderRequest → Except String Trade)
    (h : 0 < sr.position.quantity) :
    executeBuySignal sr signal submit = (sr, []) := by
  unfold executeBuySignal
  rw [if_pos h]

/-- Witness for C1 at a runner holding one unit. -/
theorem buy_rejected_when_position_open_witness :
    (0 : ℚ) < ({ position := { quantity := 1, averagePrice := 100 } } : StrategyRunner).position.quantity ∧
    executeBuySignal { position := { quantity := 1, averagePrice := 100 } }
      { typ := SignalType.buy, symbol := "DOGE-USD", price := 100, quantity := 1,
        confidence := 1, timestamp := 0 }
      (fun _ => Except.error "api down") =
      ({ position := { quantity := 1, averagePrice := 100 } }, []) :=
  ⟨by norm_num,
   buy_rejected_when_position_open _ _ _ (by norm_num)⟩

/-- C2 counterexample: the claim fails on the code. First, after the fill
sequence buy 2 at 100, sell 1 at 100, buy 1 at 200 (never flat in between),
the open position's average price is 150, not the quantity-weighted mean
400/3 of the two buy fills; second, a sell that closes the position resets
the average price from 100 to 0, so a sell fill can change `AveragePrice`. -/
theorem position_avg_counterexample :
    (applyTrades { configSymbol := "DOGE-USD" }
      [{ side := "buy", quantity := 2, price := 100 },
       { side := "sell", quantity := 1, price := 100 },
       { side := "buy", quantity := 1, price := 200 }]).position.quantity = 2 ∧
    (applyTrades { configSymbol := "DOGE-USD" }
      [{ side := "buy", quantity := 2, price := 100 },
       { side := "sell", quantity := 1, price := 100 },
       { side := "buy", quantity := 1, price := 200 }]).position.averagePrice = 150 ∧
    (150 : ℚ) ≠ (2 * 100 + 1 * 200) / (2 + 1) ∧
    (applyTrades { configSymbol := "DOGE-USD" }
      [{ side := "buy", quantity := 1, price := 100 }]).position.averagePrice = 100 ∧
    (applyTrades { configSymbol := "DOGE-USD" }
      [{ side := "buy", quantity := 1, price := 100 },
       { side := "sell", quantity := 1, price := 100 }]).position.averagePrice = 0 := by
  refine ⟨?_, ?_, by norm_num, ?_, ?_⟩ <;>
    norm_num +decide [applyTrades, updatePositionFromTrade]

/-- C2 amended: starting flat, the position quantity stays nonnegative for
every fill sequence with nonnegative quantities; whenever the episode since
the position was last flat consists of buy fills followed by sell fills and
the position is still open at its end, the average price equals the
quantity-weighted mean of those buy fills; and a sell fill that leaves the
position open never changes the average price (one that closes it resets
the position, zeroing the average price). -/
theorem position_fold_invariant (sr : StrategyRunner) (ts buys sells : List Trade)
    (hsr : sr.position.quantity = 0)
    (hts : ∀ t ∈ ts, 0 ≤ t.quantity)
    (hb : ∀ t ∈ buys, t.side = "buy" ∧ 0 < t.quantity)
    (hs : ∀ t ∈ sells, t.side = "sell" ∧ 0 ≤ t.quantity) :
    0 ≤ (applyTrades sr ts).position.quantity ∧
    (0 < (applyTrades sr (buys ++ sells)).position.quantity →
      (applyTrades sr (buys ++ sells)).position.averagePrice = sumCost buys / sumQty buys) ∧
    (∀ (sr2 : StrategyRunner) (t : Trade), t.side = "sell" →
      0 < (updatePositionFromTrade sr2 t).position.quantity →
      (updatePositionFromTrade sr2 t).position.averagePrice = sr2.position.averagePrice) := by
  have happ : applyTrades sr (buys ++ sells) = applyTrades (applyTrades sr buys) sells := by
    simp [applyTrades, List.foldl_append]
  refine ⟨applyTrades_qty_nonneg ts sr (le_of_eq hsr.symm) hts, ?_, ?_⟩
  · intro hq
    rw [happ] at hq ⊢
    cases buys with
    | nil =>
        exfalso
        have : (applyTrades (applyTrades sr []) sells).position.quantity = 0 :=
          applyTrades_sells_zero sells _ (by simpa [applyTrades] using hsr) hs
        rw [this] at hq
        exact lt_irrefl 0 hq
    | cons b bs =>
        obtain ⟨hq', hcost⟩ := applyTrades_buys (b :: bs) sr (le_of_eq hsr.symm) hb
        have hsq : 0 < sumQty (b :: bs) := by
          have h1 := (hb b (by simp)).2
          have h2 : 0 ≤ sumQty bs :=
            sumQty_nonneg bs (fun u hu => le_of_lt (hb u (by simp [hu])).2)
          simp only [sumQty, List.map_cons, List.sum_cons] at h2 ⊢
          linarith
        have havg := applyTrades_sells_avg sells (applyTrades sr (b :: bs)) hs hq
        rw [havg]
        have hq'' : (applyTrades sr (b :: bs)).position.quantity = sumQty (b :: bs) := by
          rw [hq', hsr, zero_add]
        rw [hq'', hsr, zero_mul, zero_add] at hcost
        field_simp
        linarith [hcost]
  · intro sr2 t hside hq2
    have hnb : ¬ t.side = "buy" := by simp [hside]
    rw [updatePos_quantity, if_neg hnb, if_pos hside] at hq2
    by_cases hclose : sr2.position.quantity - t.quantity ≤ 0
    · rw [if_pos hclose] at hq2
      exact absurd hq2 (lt_irrefl 0)
    · rw [updatePos_avg, if_neg hnb, if_pos hside, if_neg hclose]

/-- Witness for C2 amended: buy 2 at 100 then sell 1 at 110 leaves one unit
open at average price 100, the weighted mean of the single buy fill. -/
theorem position_fold_invariant_witness :
    0 ≤ (applyTrades { configSymbol := "DOGE-USD" }
      [{ side := "buy", quantity := 1, price := 50 }]).position.quantity ∧
    (0 < (applyTrades { configSymbol := "DOGE-USD" }
      ([{ side := "buy", quantity := 2, price := 100 }] ++
       [{ side := "sell", quantity := 1, price := 110 }])).position.quantity →
      (applyTrades { configSymbol := "DOGE-USD" }
        ([{ side := "buy", quantity := 2, price := 100 }] ++
         [{ side := "sell", quantity := 1, price := 110 }])).position.averagePrice =
        sumCost [{ side := "buy", quantity := 2, price := 100 }] /
          sumQty [{ side := "buy", quantity := 2, price := 100 }]) ∧
    (∀ (sr2 : StrategyRunner) (t : Trade), t.side = "sell" →
      0 < (updatePositionFromTrade sr2 t).position.quantity →
      (updatePositionFromTrade sr2 t).position.averagePrice = sr2.position.averagePrice) :=
  position_fold_invariant { configSymbol := "DOGE-USD" }
    [{ side := "buy", quantity := 1, price := 50 }]
    [{ side := "buy", quantity := 2, price := 100 }]
    [{ side := "sell", quantity := 1, price := 110 }]
    (by decide) (by decide) (by decide) (by decide)

/-- C3: with the daily counter of a strategy at the daily trade limit,
`ValidateSignal` rejects any signal of that strategy on the same calendar
day; the lazy counter reset happens exactly when a calendar-day boundary
has passed since the last reset, and once it has, the stale counters play
no part in validation (the outcome is that of a freshly cleared manager). -/
theorem validateSignal_daily_limit_and_reset (rm : RiskManager) (now : ℚ) (nowDay : ℤ)
    (signal : Signal) (limits : RiskLimits) (state : StrategyState) :
    (rm.lastResetDay = nowDay →
      lookupZ rm.dailyTradeCount state.name = limits.maxDailyTrades →
      (ValidateSignal rm now nowDay signal limits state).1 = false) ∧
    (rm.lastResetDay < nowDay →
      ValidateSignal rm now nowDay signal limits state =
        ValidateSignal { dailyTradeCount := [], dailyLoss := [], lastResetDay := nowDay }
          now nowDay signal limits state) ∧
    (¬ rm.lastResetDay < nowDay → resetDailyCountersIfNeeded rm nowDay = rm) := by
  refine ⟨?_, ?_, ?_⟩
  · intro hday hcount
    unfold ValidateSignal
    have hreset : resetDailyCountersIfNeeded rm nowDay = rm := by
      unfold resetDailyCountersIfNeeded
      rw [if_neg (by rw [hday]; exact lt_irrefl nowDay)]
    rw [hreset, if_pos (le_of_eq hcount.symm)]
  · intro hlt
    unfold ValidateSignal
    have h1 : resetDailyCountersIfNeeded rm nowDay =
        { dailyTradeCount := [], dailyLoss := [], lastResetDay := nowDay } := by
      unfold resetDailyCountersIfNeeded
      rw [if_pos hlt]
    have h2 : resetDailyCountersIfNeeded
        { dailyTradeCount := [], dailyLoss := [], lastResetDay := nowDay } nowDay =
        { dailyTradeCount := [], dailyLoss := [], lastResetDay := nowDay } := by
      unfold resetDailyCountersIfNeeded
      rw [if_neg (lt_irrefl nowDay)]
    rw [h1, h2]
  · intro hge
    unfold resetDailyCountersIfNeeded
    rw [if_neg hge]

/-- Witness for C3: a manager whose counter for "ma" sits at the limit of 3
rejects a confident signal on the same day, and on the next day behaves
like a cleared manager. -/
theorem validateSignal_daily_limit_and_reset_witness :
    (({ dailyTradeCount := [("ma", 3)], dailyLoss := [], lastResetDay := 20000 } : RiskManager).lastResetDay = 20000 →
      lookupZ [("ma", 3)] "ma" = (3 : ℤ) →
      (ValidateSignal { dailyTradeCount := [("ma", 3)], dailyLoss := [], lastResetDay := 20000 }
        100 20000
        { typ := SignalType.buy, symbol := "DOGE-USD", price := 1, quantity := 1,
          confidence := 1, timestamp := 0 }
        { maxPositionSize := 100, maxDailyTrades := 3, maxDailyLoss := 50, cooldownPeriod := 60 }
        { name := "ma" }).1 = false) ∧
    (({ dailyTradeCount := [("ma", 3)], dailyLoss := [], lastResetDay := 20000 } : RiskManager).lastResetDay < 20001 →
      ValidateSignal { dailyTradeCount := [("ma", 3)], dailyLoss := [], lastResetDay := 20000 }
        100 20001
        { typ := SignalType.buy, symbol := "DOGE-USD", price := 1, quantity := 1,
          confidence := 1, timestamp := 0 }
        { maxPositionSize := 100, maxDailyTrades := 3, maxDailyLoss := 50, cooldownPeriod := 60 }
        { name := "ma" } =
        ValidateSignal { dailyTradeCount := [], dailyLoss := [], lastResetDay := 20001 }
          100 20001
          { typ := SignalType.buy, symbol := "DOGE-USD", price := 1, quantity := 1,
            confidence := 1, timestamp := 0 }
          { maxPositionSize := 100, maxDailyTrades := 3, maxDailyLoss := 50, cooldownPeriod := 60 }
          { name := "ma" }) ∧
    True := by
  refine ⟨?_, ?_, trivial⟩
  · exact fun h1 h2 =>
      (validateSignal_daily_limit_and_reset _ 100 20000 _ _ _).1 h1 h2
  · exact fun h =>
      (validateSignal_daily_limit_and_reset
        { dailyTradeCount := [("ma", 3)], dailyLoss := [], lastResetDay := 20000 }
        100 20001 _ _ _).2.1 h

/-- C4: with an open position, `executeSellSignal` submits an order only
when the unrealized profit percent against average cost is at or below the
-2 percent stop loss or at or above the 0.5 percent minimum profit
threshold (both hard-coded in the source); when neither holds, the signal
is rejected and the runner (position, trade log, P&L) is unchanged. -/
theorem sell_profit_gating (sr : StrategyRunner) (signal : Signal)
    (submit : OrderRequest → Except String Trade)
    (hq : 0 < sr.position.quantity) :
    (((executeSellSignal sr signal submit).2 ≠ []) →
      ((sr.position.quantity * signal.price - sr.position.quantity * sr.position.averagePrice) /
          (sr.position.quantity * sr.position.averagePrice) * 100 ≤ -2 ∨
        (1/2 : ℚ) ≤
          (sr.position.quantity * signal.price - sr.position.quantity * sr.position.averagePrice) /
            (sr.position.quantity * sr.position.averagePrice) * 100)) ∧
    (¬ ((sr.position.quantity * signal.price - sr.position.quantity * sr.position.averagePrice) /
          (sr.position.quantity * sr.position.averagePrice) * 100 ≤ -2 ∨
        (1/2 : ℚ) ≤
          (sr.position.quantity * signal.price - sr.position.quantity * sr.position.averagePrice) /
            (sr.position.quantity * sr.position.averagePrice) * 100) →
      executeSellSignal sr signal submit = (sr, [])) := by
  have hnle : ¬ sr.position.quantity ≤ 0 := not_le.mpr hq
  constructor
  · intro hsub
    by_contra hgate
    apply hsub
    unfold executeSellSignal
    rw [if_neg hnle, if_neg hgate]
  · intro hgate
    unfold executeSellSignal
    rw [if_neg hnle, if_neg hgate]

/-- Witness for C4: one unit held at average cost 100 and a sell signal at
100 sits between the stop loss and the profit floor, so the runner is
returned unchanged with no order submitted. -/
theorem sell_profit_gating_witness :
    ((0 : ℚ) < ({ position := { quantity := 1, averagePrice := 100 } } : StrategyRunner).position.quantity) ∧
    (¬ ((((1 : ℚ) * 100 - 1 * 100) / (1 * 100) * 100 ≤ -2) ∨
        ((1/2 : ℚ) ≤ (1 * 100 - 1 * 100) / (1 * 100) * 100)) →
      executeSellSignal { position := { quantity := 1, averagePrice := 100 } }
        { typ := SignalType.sell, symbol := "DOGE-USD", price := 100, quantity := 1,
          confidence := 1, timestamp := 0 }
        (fun _ => Except.error "api down") =
        ({ position := { quantity := 1, averagePrice := 100 } }, [])) :=
  ⟨by norm_num,
   fun h => by
    have := (sell_profit_gating
      { position := { quantity := 1, averagePrice := 100 } }
      { typ := SignalType.sell, symbol := "DOGE-USD", price := 100, quantity := 1,
        confidence := 1, timestamp := 0 }
      (fun _ => Except.error "api down") (by norm_num)).2
    simpa using this (by norm_num)⟩

/-- The risk-metric recomputation never touches the peak or drawdown
fields. -/
lemma calculateRiskMetrics_drawdown_fields (sqrtFn : ℚ → ℚ) (pm : PerformanceMetrics) :
    (calculateRiskMetrics sqrtFn pm).peakValue = pm.peakValue ∧
    (calculateRiskMetrics sqrtFn pm).maxDrawdown = pm.maxDrawdown ∧
    (calculateRiskMetrics sqrtFn pm).maxDrawdownPercent = pm.maxDrawdownPercent := by
  unfold calculateRiskMetrics
  split
  · exact ⟨rfl, rfl, rfl⟩
  · refine ⟨?_, ?_, ?_⟩ <;> simp only [] <;> split <;> split <;> try split
    all_goals rfl

/-- Peak and drawdown fields after one same-day portfolio update, in
closed form. -/
lemma updatePV_drawdown_fields (sqrtFn : ℚ → ℚ) (pm : PerformanceMetrics) (v : ℚ) :
    (UpdatePortfolioValue sqrtFn pm v false).peakValue =
      (if pm.peakValue < v then v else pm.peakValue) ∧
    (UpdatePortfolioValue sqrtFn pm v false).maxDrawdown =
      (if pm.maxDrawdown < (if pm.peakValue < v then v else pm.peakValue) - v then
        (if pm.peakValue < v then v else pm.peakValue) - v
      else pm.maxDrawdown) ∧
    (UpdatePortfolioValue sqrtFn pm v false).maxDrawdownPercent =
      (if pm.maxDrawdown < (if pm.peakValue < v then v else pm.peakValue) - v then
        ((if pm.peakValue < v then v else pm.peakValue) - v) /
          (if pm.peakValue < v then v else pm.peakValue) * 100
      else pm.maxDrawdownPercent) := by
  obtain ⟨hp, hd, hdp⟩ := calculateRiskMetrics_drawdown_fields sqrtFn
    (let pm1 : PerformanceMetrics := { pm with totalPnL := v - pm.initialCapital }
     let pm2 : PerformanceMetrics :=
       if pm1.peakValue < v then { pm1 with peakValue := v } else pm1
     let cd := pm2.peakValue - v
     let pm3 : PerformanceMetrics :=
       if pm2.maxDrawdown < cd then
         { pm2 with maxDrawdown := cd, maxDrawdownPercent := cd / pm2.peakValue * 100 }
       else pm2
     { pm3 with dailyPnL := pm3.totalPnL - pm3.dayStartPnL })
  refine ⟨?_, ?_, ?_⟩ <;>
    · unfold UpdatePortfolioValue
      simp only [Bool.false_eq_true, if_false]
      split <;> split <;>
        simp_all [calculateRiskMetrics_drawdown_fields]

/-- C7: `UpdatePortfolioValue` is idempotent for peak and drawdown
tracking: a second call with the same portfolio value within the same day
leaves `peakValue`, `MaxDrawdown` and `MaxDrawdownPercent` exactly as after
the first call. -/
theorem updatePortfolioValue_idempotent_drawdown (sqrtFn : ℚ → ℚ)
    (pm : PerformanceMetrics) (v : ℚ) :
    ((UpdatePortfolioValue sqrtFn (UpdatePortfolioValue sqrtFn pm v false) v false).peakValue =
      (UpdatePortfolioValue sqrtFn pm v false).peakValue) ∧
    ((UpdatePortfolioValue sqrtFn (UpdatePortfolioValue sqrtFn pm v false) v false).maxDrawdown =
      (UpdatePortfolioValue sqrtFn pm v false).maxDrawdown) ∧
    ((UpdatePortfolioValue sqrtFn (UpdatePortfolioValue sqrtFn pm v false) v false).maxDrawdownPercent =
      (UpdatePortfolioValue sqrtFn pm v false).maxDrawdownPercent) := by
  obtain ⟨hp1, hd1, hdp1⟩ := updatePV_drawdown_fields sqrtFn pm v
  obtain ⟨hp2, hd2, hdp2⟩ :=
    updatePV_drawdown_fields sqrtFn (UpdatePortfolioValue sqrtFn pm v false) v
  rw [hp1] at hp2 hd2 hdp2
  rw [hd1] at hd2 hdp2
  rw [hdp1] at hdp2
  set P := (if pm.peakValue < v then v else pm.peakValue) with hP
  set D := (if pm.maxDrawdown < P - v then P - v else pm.maxDrawdown) with hD
  have hvP : v ≤ P := by rw [hP]; split <;> linarith
  have hnp : ¬ P < v := not_lt.mpr hvP
  have hDge : P - v ≤ D := by rw [hD]; split <;> linarith
  rw [if_neg hnp] at hp2 hd2 hdp2
  rw [if_neg (not_lt.mpr hDge)] at hd2 hdp2
  exact ⟨hp2.trans hp1.symm, hd2.trans hd1.symm, hdp2.trans hdp1.symm⟩

/-- Deleting a key from the pending table makes its lookup fail. -/
lemma pendingLookup_erase (l : List (String × OrderRecord)) (k : String) :
    List.find? (fun p => p.1 == k) (l.filter (fun p => !(p.1 == k))) = none := by
  apply List.find?_eq_none.mpr
  intro p hp
  have h := (List.mem_filter.mp hp).2
  simpa using h

/-- C5 counterexample: a pending order hit by the monitor's timeout is
completed with status "cancelled" (and error message "timeout"), not with
status "failed" as the claim states. -/
theorem timeout_status_counterexample :
    ((monitorOrderTimeout
        { pendingOrders :=
            [("ord1", { id := "ord1", symbol := "DOGE-USD", side := "buy", typ := "limit",
                        quantity := 1, price := 100, status := "pending", submitTime := 0 })],
          completedOrders := [] }
        "ord1" none 400).completedOrders.map (fun r => (r.status, r.errorMsg))) =
      [("cancelled", "timeout")] ∧
    ("cancelled" : String) ≠ "failed" := by
  constructor
  · with_unfolding_all decide
  · decide

/-- C5 amended: a pending order that neither fills nor is explicitly
cancelled before the order timeout elapses is cancelled by the monitor and
its record completed with status "cancelled" and error message "timeout"
(whether or not the brokerage cancellation call itself fails), exactly
once: the record moves to the completed table, leaves the pending table,
and a further timeout on the same id is a no-op. -/
theorem timeout_cancels_once (om : OrderManager) (orderID : String)
    (cancelErr cancelErr2 : Option String) (now now2 : ℚ) (r : OrderRecord)
    (h : pendingLookup om orderID = some r) :
    pendingLookup (monitorOrderTimeout om orderID cancelErr now) orderID = none ∧
    (monitorOrderTimeout om orderID cancelErr now).completedOrders =
      om.completedOrders ++
        [{ r with status := "cancelled", completeTime := now, errorMsg := "timeout" }] ∧
    monitorOrderTimeout (monitorOrderTimeout om orderID cancelErr now) orderID cancelErr2 now2 =
      monitorOrderTimeout om orderID cancelErr now := by
  have hmain : monitorOrderTimeout om orderID cancelErr now =
      { pendingOrders := om.pendingOrders.filter (fun p => !(p.1 == orderID)),
        completedOrders := om.completedOrders ++
          [{ r with status := "cancelled", completeTime := now, errorMsg := "timeout" }] } := by
    unfold monitorOrderTimeout cancelOrder
    rw [h]
    cases cancelErr <;> rfl
  have hlook : pendingLookup (monitorOrderTimeout om orderID cancelErr now) orderID = none := by
    rw [hmain]
    unfold pendingLookup pendingLookup.lookupRec
    rw [pendingLookup_erase]
  refine ⟨hlook, by rw [hmain], ?_⟩
  set om1 := monitorOrderTimeout om orderID cancelErr now with hom1
  unfold monitorOrderTimeout cancelOrder
  rw [hlook]

/-- Witness for C5 amended at a one-entry pending table. -/
theorem timeout_cancels_once_witness :
    pendingLookup
      (monitorOrderTimeout
        { pendingOrders := [("ord2", { id := "ord2", symbol := "DOGE-USD", side := "sell",
                                       typ := "limit", quantity := 2, price := 90,
                                       status := "pending", submitTime := 10 })],
          completedOrders := [] }
        "ord2" (some "network") 500) "ord2" = none ∧
    (monitorOrderTimeout
        { pendingOrders := [("ord2", { id := "ord2", symbol := "DOGE-USD", side := "sell",
                                       typ := "limit", quantity := 2, price := 90,
                                       status := "pending", submitTime := 10 })],
          completedOrders := [] }
        "ord2" (some "network") 500).completedOrders =
      [{ id := "ord2", symbol := "DOGE-USD", side := "sell", typ := "limit",
         quantity := 2, price := 90, status := "cancelled", submitTime := 10,
         completeTime := 500, errorMsg := "timeout" }] ∧
    monitorOrderTimeout
      (monitorOrderTimeout
        { pendingOrders := [("ord2", { id := "ord2", symbol := "DOGE-USD", side := "sell",
                                       typ := "limit", quantity := 2, price := 90,
                                       status := "pending", submitTime := 10 })],
          completedOrders := [] }
        "ord2" (some "network") 500) "ord2" none 900 =
      monitorOrderTimeout
        { pendingOrders := [("ord2", { id := "ord2", symbol := "DOGE-USD", side := "sell",
                                       typ := "limit", quantity := 2, price := 90,
                                       status := "pending", submitTime := 10 })],
          completedOrders := [] }
        "ord2" (some "network") 500 := by
  have h := timeout_cancels_once
    { pendingOrders := [("ord2", { id := "ord2", symbol := "DOGE-USD", side := "sell",
                                   typ := "limit", quantity := 2, price := 90,
                                   status := "pending", submitTime := 10 })],
      completedOrders := [] }
    "ord2" (some "network") none 500 900
    { id := "ord2", symbol := "DOGE-USD", side := "sell", typ := "limit",
      quantity := 2, price := 90, status := "pending", submitTime := 10 }
    (by with_unfolding_all decide)
  exact ⟨h.1, h.2.1, h.2.2⟩

/-- C9: when the brokerage accepts an order without reporting an immediate
fill, `SubmitOrder` still returns a non-error Trade whose quantity and
price are copied from the request rather than from any fill, while the
order record sits in the pending table under monitoring. -/
theorem submitOrder_pending_returns_request_trade (om : OrderManager)
    (request : OrderRequest) (clientID : String) (now : ℚ) (o : CryptoOrder)
    (h : o.state ≠ "filled") :
    (SubmitOrder om request clientID now (Except.ok o)).1 =
      Except.ok ({ id := o.id, symbol := request.symbol, side := request.side,
                   quantity := request.quantity, price := request.price,
                   timestamp := now } : Trade) ∧
    (o.id, ({ id := o.id, clientID := clientID, symbol := request.symbol,
              side := request.side, typ := request.typ, quantity := request.quantity,
              price := request.price, status := o.state, filledQty := o.filledAssetQuantity,
              avgPrice := o.averagePrice, submitTime := now } : OrderRecord)) ∈
      (SubmitOrder om request clientID now (Except.ok o)).2.pendingOrders := by
  simp [SubmitOrder, h]

/-- Witness for C9 at an order the brokerage leaves open. -/
theorem submitOrder_pending_returns_request_trade_witness :
    (SubmitOrder { pendingOrders := [], completedOrders := [] }
        { symbol := "DOGE-USD", side := "buy", typ := "limit", quantity := 4, price := 25 }
        "client-7" 1000
        (Except.ok { id := "srv-9", state := "open", averagePrice := 0,
                     filledAssetQuantity := 0 })).1 =
      Except.ok ({ id := "srv-9", symbol := "DOGE-USD", side := "buy",
                   quantity := 4, price := 25, timestamp := 1000 } : Trade) ∧
    ("srv-9", ({ id := "srv-9", clientID := "client-7", symbol := "DOGE-USD",
                 side := "buy", typ := "limit", quantity := 4, price := 25,
                 status := "open", filledQty := 0, avgPrice := 0,
                 submitTime := 1000 } : OrderRecord)) ∈
      (SubmitOrder { pendingOrders := [], completedOrders := [] }
        { symbol := "DOGE-USD", side := "buy", typ := "limit", quantity := 4, price := 25 }
        "client-7" 1000
        (Except.ok { id := "srv-9", state := "open", averagePrice := 0,
                     filledAssetQuantity := 0 })).2.pendingOrders :=
  submitOrder_pending_returns_request_trade _ _ _ _ _ (by decide)

/-- Fold a list of completed trades through `UpdateFromTrade`. -/
def applyPerfTrades (pm : PerformanceMetrics) (ts : List Trade) : PerformanceMetrics :=
  ts.foldl UpdateFromTrade pm

/-- One non-losing trade leaves the loss tally, loss average and profit
factor of a loss-free accumulator at zero. -/
lemma updateFromTrade_noLoss_step (pm : PerformanceMetrics) (t : Trade)
    (hpnl : 0 ≤ t.pnl) (hA : pm.averageLoss = 0) (hL : pm.losingTrades = 0)
    (hP : pm.profitFactor = 0) :
    (UpdateFromTrade pm t).averageLoss = 0 ∧ (UpdateFromTrade pm t).losingTrades = 0 ∧
    (UpdateFromTrade pm t).profitFactor = 0 := by
  have hnl : ¬ t.pnl < 0 := not_lt.mpr hpnl
  simp only [UpdateFromTrade]
  split_ifs <;> simp_all

/-- Folding non-losing trades from a loss-free accumulator keeps the loss
tally, loss average and profit factor at zero. -/
lemma applyPerfTrades_noLoss (ts : List Trade) (pm : PerformanceMetrics)
    (hts : ∀ t ∈ ts, 0 ≤ t.pnl) (hA : pm.averageLoss = 0) (hL : pm.losingTrades = 0)
    (hP : pm.profitFactor = 0) :
    (applyPerfTrades pm ts).averageLoss = 0 ∧ (applyPerfTrades pm ts).losingTrades = 0 ∧
    (applyPerfTrades pm ts).profitFactor = 0 := by
  induction ts generalizing pm with
  | nil => exact ⟨hA, hL, hP⟩
  | cons t rest ih =>
      obtain ⟨a, l, p⟩ := updateFromTrade_noLoss_step pm t (hts t (by simp)) hA hL hP
      exact ih (UpdateFromTrade pm t) (fun u hu => hts u (by simp [hu])) a l p

/-- A trade with zero P&L counts in the trade total but in neither the win
nor the loss tally. -/
lemma updateFromTrade_zero_step (pm : PerformanceMetrics) (t : Trade) (h : t.pnl = 0) :
    (UpdateFromTrade pm t).totalTrades = pm.totalTrades + 1 ∧
    (UpdateFromTrade pm t).winningTrades = pm.winningTrades ∧
    (UpdateFromTrade pm t).losingTrades = pm.losingTrades := by
  have h1 : ¬ 0 < t.pnl := by rw [h]; exact lt_irrefl 0
  have h2 : ¬ t.pnl < 0 := by rw [h]; exact lt_irrefl 0
  simp only [UpdateFromTrade]
  split_ifs <;> simp_all

/-- The profit factor changes only behind the positive-average-loss guard. -/
lemma updateFromTrade_pf_guard (pm : PerformanceMetrics) (t : Trade)
    (h : (UpdateFromTrade pm t).profitFactor ≠ pm.profitFactor) :
    0 < (UpdateFromTrade pm t).averageLoss := by
  by_contra hle
  apply h
  simp only [UpdateFromTrade] at hle ⊢
  split_ifs at hle ⊢ <;> simp_all

/-- Loss average stays nonnegative, the loss count stays nonnegative, and a
positive loss average certifies at least one losing trade. -/
lemma updateFromTrade_inv_step (pm : PerformanceMetrics) (t : Trade)
    (h1 : 0 ≤ pm.averageLoss) (h2 : 0 ≤ pm.losingTrades)
    (h3 : 0 < pm.averageLoss → 0 < pm.losingTrades) :
    0 ≤ (UpdateFromTrade pm t).averageLoss ∧ 0 ≤ (UpdateFromTrade pm t).losingTrades ∧
    (0 < (UpdateFromTrade pm t).averageLoss → 0 < (UpdateFromTrade pm t).losingTrades) := by
  have hcast : (0 : ℚ) ≤ (pm.losingTrades : ℚ) := by exact_mod_cast h2
  have hnum : 0 ≤ pm.averageLoss * ((pm.losingTrades : ℚ) + 1 - 1) + |t.pnl| := by
    have := mul_nonneg h1 (by linarith : (0 : ℚ) ≤ (pm.losingTrades : ℚ) + 1 - 1)
    have := abs_nonneg t.pnl
    linarith
  have hden : (0 : ℚ) < (pm.losingTrades : ℚ) + 1 := by linarith
  simp only [UpdateFromTrade]
  split_ifs <;> simp_all
  all_goals
    exact ⟨div_nonneg hnum (le_of_lt hden), by omega⟩

/-- Fold form of `updateFromTrade_inv_step`. -/
lemma applyPerfTrades_inv (ts : List Trade) (pm : PerformanceMetrics)
    (h1 : 0 ≤ pm.averageLoss) (h2 : 0 ≤ pm.losingTrades)
    (h3 : 0 < pm.averageLoss → 0 < pm.losingTrades) :
    0 ≤ (applyPerfTrades pm ts).averageLoss ∧ 0 ≤ (applyPerfTrades pm ts).losingTrades ∧
    (0 < (applyPerfTrades pm ts).averageLoss → 0 < (applyPerfTrades pm ts).losingTrades) := by
  induction ts generalizing pm with
  | nil => exact ⟨h1, h2, h3⟩
  | cons t rest ih =>
      obtain ⟨a, l, p⟩ := updateFromTrade_inv_step pm t h1 h2 h3
      exact ih (UpdateFromTrade pm t) a l p

/-- C10: in `UpdateFromTrade` the profit factor changes only behind the
positive-average-loss guard, so a trade history without losses keeps the
profit factor at zero however many wins it holds; a zero-P&L trade counts
in the trade total but in neither tally; and whenever the guard fires on a
history reachable from the fresh accumulator, the divisor
`averageLoss * losingTrades` of the profit-factor update is positive. -/
theorem updateFromTrade_guards (ts : List Trade) (t : Trade) (pm : PerformanceMetrics)
    (hts : ∀ u ∈ ts, 0 ≤ u.pnl) (ht : t.pnl = 0) :
    (applyPerfTrades NewPerformanceMetrics ts).profitFactor = 0 ∧
    (applyPerfTrades NewPerformanceMetrics ts).losingTrades = 0 ∧
    (UpdateFromTrade pm t).totalTrades = pm.totalTrades + 1 ∧
    (UpdateFromTrade pm t).winningTrades = pm.winningTrades ∧
    (UpdateFromTrade pm t).losingTrades = pm.losingTrades ∧
    (∀ (pm2 : PerformanceMetrics) (u : Trade),
      (UpdateFromTrade pm2 u).profitFactor ≠ pm2.profitFactor →
      0 < (UpdateFromTrade pm2 u).averageLoss) ∧
    (∀ us : List Trade,
      0 < (applyPerfTrades NewPerformanceMetrics us).averageLoss →
      0 < (applyPerfTrades NewPerformanceMetrics us).averageLoss *
        ((applyPerfTrades NewPerformanceMetrics us).losingTrades : ℚ)) := by
  obtain ⟨a0, l0, p0⟩ := applyPerfTrades_noLoss ts NewPerformanceMetrics hts rfl rfl rfl
  obtain ⟨t1, w1, lo1⟩ := updateFromTrade_zero_step pm t ht
  refine ⟨p0, l0, t1, w1, lo1, updateFromTrade_pf_guard, ?_⟩
  intro us hpos
  obtain ⟨ia, il, ip⟩ := applyPerfTrades_inv us NewPerformanceMetrics
    (le_refl 0) (le_refl 0) (fun hc => absurd hc (lt_irrefl 0))
  have hl := ip hpos
  have : (0 : ℚ) < ((applyPerfTrades NewPerformanceMetrics us).losingTrades : ℚ) := by
    exact_mod_cast hl
  exact mul_pos hpos this

/-- Witness for C10: one win then a break-even trade, applied to a fresh
accumulator. -/
theorem updateFromTrade_guards_witness :
    (applyPerfTrades NewPerformanceMetrics
      [{ pnl := 3 }, { pnl := 0 }]).profitFactor = 0 ∧
    (applyPerfTrades NewPerformanceMetrics
      [{ pnl := 3 }, { pnl := 0 }]).losingTrades = 0 ∧
    (UpdateFromTrade NewPerformanceMetrics { pnl := 0 }).totalTrades =
      NewPerformanceMetrics.totalTrades + 1 ∧
    (UpdateFromTrade NewPerformanceMetrics { pnl := 0 }).winningTrades =
      NewPerformanceMetrics.winningTrades ∧
    (UpdateFromTrade NewPerformanceMetrics { pnl := 0 }).losingTrades =
      NewPerformanceMetrics.losingTrades ∧
    (∀ (pm2 : PerformanceMetrics) (u : Trade),
      (UpdateFromTrade pm2 u).profitFactor ≠ pm2.profitFactor →
      0 < (UpdateFromTrade pm2 u).averageLoss) ∧
    (∀ us : List Trade,
      0 < (applyPerfTrades NewPerformanceMetrics us).averageLoss →
      0 < (applyPerfTrades NewPerformanceMetrics us).averageLoss *
        ((applyPerfTrades NewPerformanceMetrics us).losingTrades : ℚ)) :=
  updateFromTrade_guards [{ pnl := 3 }, { pnl := 0 }] { pnl := 0 }
    NewPerformanceMetrics (by decide) (by decide)

/-- With enough history, the risk-metric pass stores exactly
`calculateVaR` of the daily returns at the 5 percent level. -/
lemma calculateRiskMetrics_var95 (sqrtFn : ℚ → ℚ) (pm : PerformanceMetrics)
    (h30 : 30 ≤ pm.dailyReturns.length) :
    (calculateRiskMetrics sqrtFn pm).var95 = calculateVaR pm.dailyReturns (1/20) := by
  unfold calculateRiskMetrics
  rw [if_neg (not_lt.mpr h30)]
  simp only []
  split <;> split <;> try split
  all_goals simp

/-- C8: with at least 30 daily returns recorded, the stored VaR95 is the
absolute value of the entry at index `floor(n/20)` of the daily returns
sorted ascending (`n` the number of returns) — the sorted list being an
ascending permutation of the returns; with fewer than 30 returns the
risk-metric pass changes nothing. -/
theorem var95_percentile_and_min_history (sqrtFn : ℚ → ℚ) (pm : PerformanceMetrics) :
    (30 ≤ pm.dailyReturns.length →
      (calculateRiskMetrics sqrtFn pm).var95 =
        |(List.insertionSort (fun a b => a ≤ b) pm.dailyReturns).getD
          ⌊(1/20 : ℚ) * (pm.dailyReturns.length : ℚ)⌋.toNat 0| ∧
      List.Sorted (fun a b => a ≤ b) (List.insertionSort (fun a b => a ≤ b) pm.dailyReturns) ∧
      (List.insertionSort (fun a b => a ≤ b) pm.dailyReturns).Perm pm.dailyReturns) ∧
    (pm.dailyReturns.length < 30 → calculateRiskMetrics sqrtFn pm = pm) := by
  haveI htot : IsTotal ℚ (fun a b : ℚ => a ≤ b) := ⟨fun a b => le_total a b⟩
  haveI htr : IsTrans ℚ (fun a b : ℚ => a ≤ b) := ⟨fun _ _ _ hab hbc => le_trans hab hbc⟩
  constructor
  · intro h30
    have hne : pm.dailyReturns ≠ [] := by
      intro he
      rw [he] at h30
      simp at h30
    have hidx : ⌊(1/20 : ℚ) * (pm.dailyReturns.length : ℚ)⌋.toNat <
        pm.dailyReturns.length := by
      have hpos : (0 : ℚ) ≤ (1/20 : ℚ) * (pm.dailyReturns.length : ℚ) := by positivity
      have hfl0 : (0 : ℤ) ≤ ⌊(1/20 : ℚ) * (pm.dailyReturns.length : ℚ)⌋ :=
        Int.floor_nonneg.mpr hpos
      have hn30 : (30 : ℚ) ≤ (pm.dailyReturns.length : ℚ) := by exact_mod_cast h30
      have hflt : ⌊(1/20 : ℚ) * (pm.dailyReturns.length : ℚ)⌋ <
          (pm.dailyReturns.length : ℤ) := by
        apply Int.floor_lt.mpr
        push_cast
        linarith
      omega
    refine ⟨?_, List.sorted_insertionSort _ pm.dailyReturns,
      List.perm_insertionSort _ pm.dailyReturns⟩
    rw [calculateRiskMetrics_var95 sqrtFn pm h30]
    unfold calculateVaR
    rw [if_neg hne]
    have hlen : (List.insertionSort (fun a b : ℚ => a ≤ b) pm.dailyReturns).length =
        pm.dailyReturns.length := List.length_insertionSort _ _
    have hmin : min ⌊(1/20 : ℚ) * (pm.dailyReturns.length : ℚ)⌋.toNat
        ((List.insertionSort (fun a b : ℚ => a ≤ b) pm.dailyReturns).length - 1) =
        ⌊(1/20 : ℚ) * (pm.dailyReturns.length : ℚ)⌋.toNat := by
      rw [hlen]
      omega
    simp only [hmin]
  · intro hlt
    unfold calculateRiskMetrics
    rw [if_pos hlt]

/-- Witness for C8: thirty flat daily returns on the one hand, five on the
other. -/
theorem var95_percentile_and_min_history_witness :
    ((calculateRiskMetrics (fun _ => 0)
        { dailyReturns := List.replicate 30 (0 : ℚ) }).var95 =
      |(List.insertionSort (fun a b => a ≤ b) (List.replicate 30 (0 : ℚ))).getD
        ⌊(1/20 : ℚ) * ((List.replicate 30 (0 : ℚ)).length : ℚ)⌋.toNat 0| ∧
      List.Sorted (fun a b => a ≤ b)
        (List.insertionSort (fun a b => a ≤ b) (List.replicate 30 (0 : ℚ))) ∧
      (List.insertionSort (fun a b => a ≤ b) (List.replicate 30 (0 : ℚ))).Perm
        (List.replicate 30 (0 : ℚ))) ∧
    (calculateRiskMetrics (fun _ => 0) { dailyReturns := [1, 2, 3, 4, 5] } =
      { dailyReturns := [1, 2, 3, 4, 5] }) :=
  ⟨(var95_percentile_and_min_history (fun _ => 0)
      { dailyReturns := List.replicate 30 (0 : ℚ) }).1 (by decide),
   (var95_percentile_and_min_history (fun _ => 0)
      { dailyReturns := [1, 2, 3, 4, 5] }).2 (by decide)⟩

/-- Executable strict-increase check for a price series. -/
def strictlyIncreasing : List ℚ → Bool
  | [] => true
  | [_] => true
  | a :: b :: rest => decide (a < b) && strictlyIncreasing (b :: rest)

set_option maxRecDepth 8192 in
/-- Full evaluation of the 25-tick scenario: not a single signal is
emitted. -/
lemma scenario_run_no_signals : scenarioSignals = [] := by
  with_unfolding_all decide

/-- C6 counterexample: the scenario input matches the claim — 25 strictly
increasing prices running from 100 to 125 — yet the run emits no Buy signal
at any tick, so no Buy with confidence in (0.5, 1] ever fires: the
crossover test compares the previous short and long averages, and on a
strictly increasing series the short average is already above the long one
at the first tick where both are defined. -/
theorem ma_scenario_counterexample :
    strictlyIncreasing (scenarioTicks.map (fun t => t.price)) = true ∧
    scenarioTicks.length = 25 ∧
    (scenarioTicks.map (fun t => t.price)).head? = some 100 ∧
    (scenarioTicks.map (fun t => t.price)).getLast? = some 125 ∧
    scenarioSignals.filter (fun s => s.typ == SignalType.buy) = [] := by
  refine ⟨by with_unfolding_all decide, by with_unfolding_all decide,
    by with_unfolding_all decide, by with_unfolding_all decide, ?_⟩
  rw [scenario_run_no_signals]
  rfl

/-- C6 amended: a MovingAverage strategy with short period 5 and long
period 20 fed 25 strictly increasing prices from 100 to 125 emits no Buy
signal before the 20th tick (insufficient history) and, in fact, no signal
at all: the required crossover from short-at-or-below-long to
short-above-long never occurs on a strictly increasing price series. -/
theorem ma_scenario_no_buy_signal :
    scenarioSignals = [] ∧
    strictlyIncreasing (scenarioTicks.map (fun t => t.price)) = true :=
  ⟨scenario_run_no_signals, by with_unfolding_all decide⟩

end DazedTrader
